import Mathlib

/-!
Shallow embedding of the aim-trainer game component (src/app/src/App.tsx).

The component owns all game state (session phase, target list, stats, clock,
combo counters) and mutates it through a fixed set of callbacks: `spawnTarget`,
`hitTarget`, `handleMiss`, `startGame`, `endGame`, the per-second session-clock
interval, the spawn interval and the 100 ms expiry-cleanup interval.  Each
callback is translated here as a pure function on `AppState`; timer firings and
user inputs become an `Event` type, and `step` applies an event to a state,
guarded exactly as the UI guards the real callbacks (the click-to-miss handler
is only attached while `playing`, targets are only rendered while `playing`,
the End button only exists while `playing`, the Play Again / Main Menu buttons
only exist on the `ended` screen, and the intervals are torn down by the
effect cleanups whenever the state leaves `playing`).

The three staggered `setTimeout(spawnTarget, i * 300)` calls of the initial
spawn effect have no cleanup in the source, so the pending timeouts survive a
transition out of `playing`; they are modelled by the `pendingSpawns` counter,
which `startGame` raises by 3 (the effect fires on each transition into
`playing`) and which no other transition cancels.

JavaScript numbers are modelled as exact arithmetic: integer-valued state
fields (`score`, `timeLeft`, `combo`, `maxCombo`, timestamps, coordinates)
become `Int`, counters that only ever increment from 0 (`hits`, `misses`,
target ids) become `Nat`, and `Math.round(h / t * 100)` on nonnegative
arguments is the exact half-up rounding `(200 * h + t) / (2 * t)` in `Nat`
division.  Randomized spawn data (position, size, timestamp) enter as
parameters of the spawn events.
-/

/-- A target on screen: `{ id, x, y, size, createdAt }` from App.tsx lines 4-10. -/
structure Target where
  id : Nat
  x : Int
  y : Int
  size : Int
  createdAt : Int
deriving DecidableEq

/-- The stats record `{ score, hits, misses, accuracy }` from App.tsx lines 12-17. -/
structure GameStats where
  score : Int
  hits : Nat
  misses : Nat
  accuracy : Nat
deriving DecidableEq

/-- The session phase: `'menu' | 'playing' | 'ended'` (App.tsx line 20). -/
inductive GameState where
  | menu
  | playing
  | ended
deriving DecidableEq

/-- The whole mutable state bag of the component: the `useState` hooks
(`gameState`, `targets`, `stats`, `timeLeft`, `combo`, `maxCombo`), the
`targetIdRef` counter, and `pendingSpawns`, the number of not-yet-fired
`setTimeout(spawnTarget, …)` callbacks scheduled by the initial spawn effect
(App.tsx lines 157-164), which has no cleanup. -/
structure AppState where
  gameState : GameState
  targets : List Target
  stats : GameStats
  timeLeft : Int
  combo : Int
  maxCombo : Int
  targetId : Nat
  pendingSpawns : Nat
deriving DecidableEq

/-- Exact `Math.round (a / b)` for nonnegative `a` and positive `b`:
round half up, i.e. `⌊a / b + 1 / 2⌋ = ⌊(2a + b) / (2b)⌋`. -/
def roundDiv (a b : Nat) : Nat := (2 * a + b) / (2 * b)

/-- The accuracy recomputation shared verbatim by the hit path (App.tsx
lines 72-73) and the miss path (lines 92-93):
`total > 0 ? Math.round((hits / total) * 100) : 0`. -/
def jsAccuracy (hits misses : Nat) : Nat :=
  let total := hits + misses
  if total > 0 then roundDiv (hits * 100) total else 0

/-- `spawnTarget` (App.tsx lines 45-63): appends a fresh target carrying the
current `targetIdRef` value and bumps the counter.  The randomly drawn
position and size and the `Date.now()` timestamp enter as parameters. -/
def spawnTarget (x y size now : Int) (s : AppState) : AppState :=
  { s with
    targets := s.targets ++ [⟨s.targetId, x, y, size, now⟩]
    targetId := s.targetId + 1 }

/-- `hitTarget` (App.tsx lines 66-86): drop the clicked target by id, bump
`hits`, recompute `accuracy`, add `100 + combo * 10` to `score` using the
pre-hit `combo`, then increment `combo` and raise `maxCombo` when exceeded. -/
def hitTarget (tid : Nat) (s : AppState) : AppState :=
  let newHits := s.stats.hits + 1
  let newCombo := s.combo + 1
  { s with
    targets := s.targets.filter (fun t => t.id ≠ tid)
    stats := { s.stats with
      score := s.stats.score + 100 + s.combo * 10
      hits := newHits
      accuracy := jsAccuracy newHits s.stats.misses }
    combo := newCombo
    maxCombo := if newCombo > s.maxCombo then newCombo else s.maxCombo }

/-- `handleMiss` (App.tsx lines 89-101): bump `misses`, recompute `accuracy`,
reset `combo` to 0.  `score` is untouched. -/
def handleMiss (s : AppState) : AppState :=
  let newMisses := s.stats.misses + 1
  { s with
    stats := { s.stats with
      misses := newMisses
      accuracy := jsAccuracy s.stats.hits newMisses }
    combo := 0 }

/-- `startGame` (App.tsx lines 104-112) together with the initial spawn
effect it triggers (lines 157-164): every field reset to its initial value,
`targetIdRef` back to 0, and three staggered spawn timeouts scheduled
(without cleanup, so earlier pending ones are kept). -/
def startGame (s : AppState) : AppState :=
  { s with
    gameState := GameState.playing
    stats := ⟨0, 0, 0, 0⟩
    timeLeft := 60
    combo := 0
    maxCombo := 0
    targets := []
    targetId := 0
    pendingSpawns := s.pendingSpawns + 3 }

/-- `endGame` (App.tsx lines 115-120): enter `ended` and clear the targets.
The two intervals are cleared (modelled by the `playing` guards on the tick
events), but the pending spawn timeouts are not. -/
def endGame (s : AppState) : AppState :=
  { s with gameState := GameState.ended, targets := [] }

/-- One firing of the session-clock interval (App.tsx lines 125-133): when
the previous `timeLeft` is ≤ 1 it calls `endGame()` and returns 0, otherwise
it returns `prev - 1`. -/
def clockTick (s : AppState) : AppState :=
  if s.timeLeft ≤ 1 then { endGame s with timeLeft := 0 }
  else { s with timeLeft := s.timeLeft - 1 }

/-- The spawn-interval period (App.tsx line 136):
`Math.max(400, 1000 - (60 - timeLeft) * 10)`. -/
def spawnInterval (timeLeft : Int) : Int :=
  max 400 (1000 - (60 - timeLeft) * 10)

/-- One firing of the 100 ms expiry-cleanup interval (App.tsx lines 149-152):
keep exactly the targets with `now - t.createdAt < 3000`. -/
def expiryTick (now : Int) (s : AppState) : AppState :=
  { s with targets := s.targets.filter (fun t => now - t.createdAt < 3000) }

/-- The external stimuli the component reacts to: lifecycle button clicks,
clicks on a target or on empty play area, and the firings of the three
timers plus the pending spawn timeouts.  Random spawn data are carried by
the spawn events. -/
inductive Event where
  | start
  | hit (tid : Nat)
  | miss
  | clockTick
  | spawnTick (x y size now : Int)
  | firePending (x y size now : Int)
  | expiryTick (now : Int)
  | endNow
  | toMenu
deriving DecidableEq

/-- Apply one event, with exactly the guards the UI imposes: the start
buttons exist only on the `menu` and `ended` screens, targets are rendered
(hence clickable) only while `playing`, the play-area miss handler and the
End button are attached only while `playing`, the three intervals run only
while `playing` (their effects clean up on exit), the Main Menu button is on
the `ended` screen, and a pending spawn timeout fires in any phase as long
as one is outstanding — the initial-spawn effect has no cleanup. -/
def step (s : AppState) : Event → AppState
  | Event.start => if s.gameState = GameState.playing then s else startGame s
  | Event.hit tid =>
      if s.gameState = GameState.playing ∧ tid ∈ s.targets.map Target.id then
        hitTarget tid s
      else s
  | Event.miss => if s.gameState = GameState.playing then handleMiss s else s
  | Event.clockTick => if s.gameState = GameState.playing then clockTick s else s
  | Event.spawnTick x y size now =>
      if s.gameState = GameState.playing then spawnTarget x y size now s else s
  | Event.firePending x y size now =>
      if 0 < s.pendingSpawns then
        { spawnTarget x y size now s with pendingSpawns := s.pendingSpawns - 1 }
      else s
  | Event.expiryTick now =>
      if s.gameState = GameState.playing then expiryTick now s else s
  | Event.endNow => if s.gameState = GameState.playing then endGame s else s
  | Event.toMenu =>
      if s.gameState = GameState.ended then { s with gameState := GameState.menu } else s

/-- State on first mount: `menu`, no targets, zero stats, 60 s clock,
zero combos, id counter 0, no pending spawn timeouts. -/
def initState : AppState :=
  ⟨GameState.menu, [], ⟨0, 0, 0, 0⟩, 60, 0, 0, 0, 0⟩

/-- Run a sequence of events from a state. -/
def run (s : AppState) (evs : List Event) : AppState := evs.foldl step s

/-- A state the component can actually be in: reached from the mount state
by some event sequence. -/
def Reachable (s : AppState) : Prop := ∃ evs : List Event, run initState evs = s

/-- The state invariant maintained by every callback: the cached `accuracy`
always agrees with the shared recomputation formula, the clock stays within
0–60, the combo counters are nonnegative with `combo ≤ maxCombo`, target ids
are pairwise distinct, and every live id is below the `targetIdRef` counter. -/
def GameInv (s : AppState) : Prop :=
  s.stats.accuracy = jsAccuracy s.stats.hits s.stats.misses ∧
  0 ≤ s.timeLeft ∧ s.timeLeft ≤ 60 ∧
  0 ≤ s.combo ∧ s.combo ≤ s.maxCombo ∧
  (s.targets.map Target.id).Nodup ∧
  ∀ t ∈ s.targets, t.id < s.targetId

theorem gameInv_initState : GameInv initState := by
  refine ⟨rfl, by decide, by decide, le_refl 0, le_refl 0, List.nodup_nil, ?_⟩
  intro t ht
  simp [initState] at ht

theorem gameInv_step (s : AppState) (e : Event) (h : GameInv s) : GameInv (step s e) := by
  obtain ⟨hacc, htl0, htl60, hc0, hcM, hnd, hid⟩ := h
  cases e with
  | start =>
      simp only [step]
      split
      · exact ⟨hacc, htl0, htl60, hc0, hcM, hnd, hid⟩
      · refine ⟨rfl, by simp [startGame], by simp [startGame], le_refl 0, le_refl 0,
          List.nodup_nil, ?_⟩
        intro t ht
        simp [startGame] at ht
  | hit tid =>
      simp only [step]
      split
      · refine ⟨rfl, htl0, htl60, ?_, ?_, ?_, ?_⟩
        · show (0 : Int) ≤ s.combo + 1
          omega
        · show s.combo + 1 ≤ if s.combo + 1 > s.maxCombo then s.combo + 1 else s.maxCombo
          split <;> omega
        · exact hnd.sublist ((List.filter_sublist s.targets).map Target.id)
        · intro t ht
          exact hid t (List.mem_of_mem_filter ht)
      · exact ⟨hacc, htl0, htl60, hc0, hcM, hnd, hid⟩
  | miss =>
      simp only [step]
      split
      · exact ⟨rfl, htl0, htl60, le_refl 0, le_trans hc0 hcM, hnd, hid⟩
      · exact ⟨hacc, htl0, htl60, hc0, hcM, hnd, hid⟩
  | clockTick =>
      simp only [step]
      split
      · simp only [clockTick]
        split
        · refine ⟨hacc, le_refl 0, by norm_num, hc0, hcM, List.nodup_nil, ?_⟩
          intro t ht
          simp [endGame] at ht
        · refine ⟨hacc, ?_, ?_, hc0, hcM, hnd, hid⟩
          · show (0 : Int) ≤ s.timeLeft - 1
            omega
          · show s.timeLeft - 1 ≤ 60
            omega
      · exact ⟨hacc, htl0, htl60, hc0, hcM, hnd, hid⟩
  | spawnTick x y size now =>
      simp only [step]
      split
      · refine ⟨hacc, htl0, htl60, hc0, hcM, ?_, ?_⟩
        · simp only [spawnTarget, List.map_append, List.map_cons, List.map_nil]
          refine List.Nodup.append hnd (List.nodup_singleton _) ?_
          intro a ha hb
          simp only [List.mem_singleton] at hb
          obtain ⟨t, ht, hta⟩ := List.mem_map.mp ha
          have := hid t ht
          omega
        · intro t ht
          simp only [spawnTarget, List.mem_append, List.mem_singleton] at ht
          rcases ht with ht | ht
          · exact Nat.lt_succ_of_lt (hid t ht)
          · subst ht; exact Nat.lt_succ_self _
      · exact ⟨hacc, htl0, htl60, hc0, hcM, hnd, hid⟩
  | firePending x y size now =>
      simp only [step]
      split
      · refine ⟨hacc, htl0, htl60, hc0, hcM, ?_, ?_⟩
        · simp only [spawnTarget, List.map_append, List.map_cons, List.map_nil]
          refine List.Nodup.append hnd (List.nodup_singleton _) ?_
          intro a ha hb
          simp only [List.mem_singleton] at hb
          obtain ⟨t, ht, hta⟩ := List.mem_map.mp ha
          have := hid t ht
          omega
        · intro t ht
          simp only [spawnTarget, List.mem_append, List.mem_singleton] at ht
          rcases ht with ht | ht
          · exact Nat.lt_succ_of_lt (hid t ht)
          · subst ht; exact Nat.lt_succ_self _
      · exact ⟨hacc, htl0, htl60, hc0, hcM, hnd, hid⟩
  | expiryTick now =>
      simp only [step]
      split
      · refine ⟨hacc, htl0, htl60, hc0, hcM, ?_, ?_⟩
        · exact hnd.sublist ((List.filter_sublist s.targets).map Target.id)
        · intro t ht
          exact hid t (List.mem_of_mem_filter ht)
      · exact ⟨hacc, htl0, htl60, hc0, hcM, hnd, hid⟩
  | endNow =>
      simp only [step]
      split
      · refine ⟨hacc, htl0, htl60, hc0, hcM, List.nodup_nil, ?_⟩
        intro t ht
        simp [endGame] at ht
      · exact ⟨hacc, htl0, htl60, hc0, hcM, hnd, hid⟩
  | toMenu =>
      simp only [step]
      split
      · exact ⟨hacc, htl0, htl60, hc0, hcM, hnd, hid⟩
      · exact ⟨hacc, htl0, htl60, hc0, hcM, hnd, hid⟩

theorem gameInv_run (evs : List Event) :
    ∀ s : AppState, GameInv s → GameInv (run s evs) := by
  induction evs with
  | nil => intro s h; exact h
  | cons e rest ih =>
      intro s h
      exact ih (step s e) (gameInv_step s e h)

theorem gameInv_reachable (s : AppState) (h : Reachable s) : GameInv s := by
  obtain ⟨evs, rfl⟩ := h
  exact gameInv_run evs initState gameInv_initState

/-- C1: in every reachable state — hence after every hit or miss event of any
event sequence — the cached `accuracy` equals the half-up rounding of
`hits / (hits + misses) × 100`, and equals 0 when `hits + misses = 0`. -/
theorem accuracy_always_rounded (s : AppState) (h : Reachable s) :
    s.stats.accuracy =
      if s.stats.hits + s.stats.misses = 0 then 0
      else roundDiv (s.stats.hits * 100) (s.stats.hits + s.stats.misses) := by
  obtain ⟨hacc, -⟩ := gameInv_reachable s h
  rw [hacc]
  unfold jsAccuracy
  by_cases h0 : s.stats.hits + s.stats.misses = 0 <;> simp [h0]
  omega

theorem accuracy_always_rounded_witness :
    (run initState [Event.start, Event.spawnTick 5 5 30 0, Event.hit 0,
        Event.miss]).stats.accuracy =
      if (run initState [Event.start, Event.spawnTick 5 5 30 0, Event.hit 0,
            Event.miss]).stats.hits +
          (run initState [Event.start, Event.spawnTick 5 5 30 0, Event.hit 0,
            Event.miss]).stats.misses = 0 then 0
      else roundDiv
        ((run initState [Event.start, Event.spawnTick 5 5 30 0, Event.hit 0,
            Event.miss]).stats.hits * 100)
        ((run initState [Event.start, Event.spawnTick 5 5 30 0, Event.hit 0,
            Event.miss]).stats.hits +
          (run initState [Event.start, Event.spawnTick 5 5 30 0, Event.hit 0,
            Event.miss]).stats.misses) :=
  accuracy_always_rounded _
    ⟨[Event.start, Event.spawnTick 5 5 30 0, Event.hit 0, Event.miss], rfl⟩

/-- C2: a hit event adds exactly `100 + 10 × c` to the score, where `c` is the
combo value before the hit increments it, and a miss event leaves the score
unchanged. -/
theorem score_hit_miss (s : AppState) (tid : Nat)
    (hp : s.gameState = GameState.playing) (hm : tid ∈ s.targets.map Target.id) :
    (step s (Event.hit tid)).stats.score = s.stats.score + (100 + 10 * s.combo) ∧
    (step s Event.miss).stats.score = s.stats.score := by
  constructor
  · simp only [step, if_pos (And.intro hp hm), hitTarget]
    ring
  · simp only [step, if_pos hp, handleMiss]

theorem score_hit_miss_witness :
    (step (run initState [Event.start, Event.spawnTick 5 5 30 0])
        (Event.hit 0)).stats.score =
      (run initState [Event.start, Event.spawnTick 5 5 30 0]).stats.score +
        (100 + 10 * (run initState [Event.start, Event.spawnTick 5 5 30 0]).combo) ∧
    (step (run initState [Event.start, Event.spawnTick 5 5 30 0])
        Event.miss).stats.score =
      (run initState [Event.start, Event.spawnTick 5 5 30 0]).stats.score :=
  score_hit_miss (run initState [Event.start, Event.spawnTick 5 5 30 0]) 0
    (by decide) (by decide)

/-- C3: in every reachable state — `menu`, `playing` or `ended`, with or
without live targets — the combo is nonnegative; a miss event in any playing
state (no target needed) resets the combo to exactly 0; and a hit event on a
live target increments the combo by exactly 1 from its pre-hit value. -/
theorem combo_invariants (s sm sh : AppState) (tid : Nat) (h : Reachable s)
    (hmp : sm.gameState = GameState.playing)
    (hhp : sh.gameState = GameState.playing) (hht : tid ∈ sh.targets.map Target.id) :
    0 ≤ s.combo ∧
    (step sm Event.miss).combo = 0 ∧
    (step sh (Event.hit tid)).combo = sh.combo + 1 := by
  obtain ⟨-, -, -, hc0, -⟩ := gameInv_reachable s h
  refine ⟨hc0, ?_, ?_⟩
  · simp only [step, if_pos hmp, handleMiss]
  · simp only [step, if_pos (And.intro hhp hht), hitTarget]

theorem combo_invariants_witness :
    0 ≤ initState.combo ∧
    (step (run initState [Event.start]) Event.miss).combo = 0 ∧
    (step (run initState [Event.start, Event.spawnTick 5 5 30 0])
        (Event.hit 0)).combo =
      (run initState [Event.start, Event.spawnTick 5 5 30 0]).combo + 1 :=
  combo_invariants initState (run initState [Event.start])
    (run initState [Event.start, Event.spawnTick 5 5 30 0]) 0
    ⟨[], rfl⟩ (by decide) (by decide) (by decide)

/-- C6: the spawn-scheduler period equals `max 400 (1000 − (60 − timeLeft)·10)`
milliseconds for every value of `timeLeft`; it is 1000 ms at `timeLeft = 60`
and never drops below the 400 ms floor. -/
theorem spawnInterval_formula (t : Int) :
    spawnInterval t = max 400 (1000 - (60 - t) * 10) ∧
    spawnInterval 60 = 1000 ∧
    400 ≤ spawnInterval t := by
  refine ⟨rfl, by decide, ?_⟩
  unfold spawnInterval
  exact le_max_left _ _

/-- C7: while playing, a session-clock tick decrements `timeLeft` by 1 and
stays `playing`, except that a tick firing with `timeLeft ≤ 1` transitions to
`ended` and clamps `timeLeft` to exactly 0; moreover every reachable state has
`timeLeft` within 0–60. -/
theorem clock_tick_behaviour (s : AppState) (h : Reachable s)
    (hp : s.gameState = GameState.playing) :
    ((step s Event.clockTick).timeLeft =
      if s.timeLeft ≤ 1 then 0 else s.timeLeft - 1) ∧
    ((step s Event.clockTick).gameState =
      if s.timeLeft ≤ 1 then GameState.ended else GameState.playing) ∧
    0 ≤ s.timeLeft ∧ s.timeLeft ≤ 60 := by
  obtain ⟨-, htl0, htl60, -⟩ := gameInv_reachable s h
  refine ⟨?_, ?_, htl0, htl60⟩
  · simp only [step, if_pos hp, clockTick]
    split <;> rfl
  · simp only [step, if_pos hp, clockTick]
    split
    · rfl
    · exact hp

theorem clock_tick_behaviour_witness :
    ((step (run initState [Event.start]) Event.clockTick).timeLeft =
      if (run initState [Event.start]).timeLeft ≤ 1 then 0
      else (run initState [Event.start]).timeLeft - 1) ∧
    ((step (run initState [Event.start]) Event.clockTick).gameState =
      if (run initState [Event.start]).timeLeft ≤ 1 then GameState.ended
      else GameState.playing) ∧
    0 ≤ (run initState [Event.start]).timeLeft ∧
    (run initState [Event.start]).timeLeft ≤ 60 :=
  clock_tick_behaviour (run initState [Event.start]) ⟨[Event.start], rfl⟩ (by decide)

/-- C8: restarting from the `ended` screen yields exactly the state a fresh
start from the `menu` screen yields — every game field agrees, and in both
cases the stats are zero, `timeLeft` is 60, the combos are 0, no target is
live and the target id counter is back at its initial value 0. -/
theorem restart_equals_fresh_start (s₁ s₂ : AppState)
    (h₁ : s₁.gameState = GameState.ended) (h₂ : s₂.gameState = GameState.menu) :
    (step s₁ Event.start).gameState = (step s₂ Event.start).gameState ∧
    (step s₁ Event.start).stats = (step s₂ Event.start).stats ∧
    (step s₁ Event.start).timeLeft = (step s₂ Event.start).timeLeft ∧
    (step s₁ Event.start).combo = (step s₂ Event.start).combo ∧
    (step s₁ Event.start).maxCombo = (step s₂ Event.start).maxCombo ∧
    (step s₁ Event.start).targets = (step s₂ Event.start).targets ∧
    (step s₁ Event.start).targetId = (step s₂ Event.start).targetId ∧
    (step s₁ Event.start).stats = ⟨0, 0, 0, 0⟩ ∧
    (step s₁ Event.start).timeLeft = 60 ∧
    (step s₁ Event.start).combo = 0 ∧
    (step s₁ Event.start).maxCombo = 0 ∧
    (step s₁ Event.start).targets = [] ∧
    (step s₁ Event.start).targetId = 0 := by
  have e₁ : step s₁ Event.start = startGame s₁ := by
    simp only [step]
    rw [if_neg]
    rw [h₁]
    intro hc
    cases hc
  have e₂ : step s₂ Event.start = startGame s₂ := by
    simp only [step]
    rw [if_neg]
    rw [h₂]
    intro hc
    cases hc
  rw [e₁, e₂]
  exact ⟨rfl, rfl, rfl, rfl, rfl, rfl, rfl, rfl, rfl, rfl, rfl, rfl, rfl⟩

theorem restart_equals_fresh_start_witness :
    (step (run initState [Event.start, Event.endNow]) Event.start).gameState =
      (step initState Event.start).gameState ∧
    (step (run initState [Event.start, Event.endNow]) Event.start).stats =
      (step initState Event.start).stats ∧
    (step (run initState [Event.start, Event.endNow]) Event.start).timeLeft =
      (step initState Event.start).timeLeft ∧
    (step (run initState [Event.start, Event.endNow]) Event.start).combo =
      (step initState Event.start).combo ∧
    (step (run initState [Event.start, Event.endNow]) Event.start).maxCombo =
      (step initState Event.start).maxCombo ∧
    (step (run initState [Event.start, Event.endNow]) Event.start).targets =
      (step initState Event.start).targets ∧
    (step (run initState [Event.start, Event.endNow]) Event.start).targetId =
      (step initState Event.start).targetId ∧
    (step (run initState [Event.start, Event.endNow]) Event.start).stats = ⟨0, 0, 0, 0⟩ ∧
    (step (run initState [Event.start, Event.endNow]) Event.start).timeLeft = 60 ∧
    (step (run initState [Event.start, Event.endNow]) Event.start).combo = 0 ∧
    (step (run initState [Event.start, Event.endNow]) Event.start).maxCombo = 0 ∧
    (step (run initState [Event.start, Event.endNow]) Event.start).targets = [] ∧
    (step (run initState [Event.start, Event.endNow]) Event.start).targetId = 0 :=
  restart_equals_fresh_start (run initState [Event.start, Event.endNow]) initState
    (by decide) (by decide)

/-- C4 evaluation: the initial-spawn effect schedules its `setTimeout`
callbacks without cleanup, so ending the session before they have fired does
not cancel them; when one then fires, it runs `spawnTarget` and appends a
target although the session is already `ended`.  Concretely: start, end the
session immediately, then let one pending spawn timeout fire — the resulting
state is `ended` yet holds one target. -/
theorem orphan_spawn_timeout_adds_target_after_end :
    (run initState
      [Event.start, Event.endNow, Event.firePending 10 10 40 500]).gameState =
        GameState.ended ∧
    (run initState
      [Event.start, Event.endNow, Event.firePending 10 10 40 500]).targets =
        [⟨0, 10, 10, 40, 500⟩] := by
  decide

/-- C5: an expiry-watcher tick while playing keeps a target iff its age
`now − createdAt` is strictly below 3000 ms (so it removes exactly the
targets aged ≥ 3000 ms), the surviving targets keep their relative order
(the result is a sublist), and the stats, combo counters, clock and session
phase are all untouched. -/
theorem expiry_tick_filters_old_targets (s : AppState) (now : Int) (t : Target)
    (hp : s.gameState = GameState.playing) :
    (step s (Event.expiryTick now)).targets.Sublist s.targets ∧
    (t ∈ (step s (Event.expiryTick now)).targets ↔
      t ∈ s.targets ∧ now - t.createdAt < 3000) ∧
    (step s (Event.expiryTick now)).stats = s.stats ∧
    (step s (Event.expiryTick now)).combo = s.combo ∧
    (step s (Event.expiryTick now)).maxCombo = s.maxCombo ∧
    (step s (Event.expiryTick now)).timeLeft = s.timeLeft ∧
    (step s (Event.expiryTick now)).gameState = s.gameState := by
  have hstep : step s (Event.expiryTick now) = expiryTick now s := by
    simp only [step, if_pos hp]
  rw [hstep]
  unfold expiryTick
  refine ⟨List.filter_sublist s.targets, ?_, rfl, rfl, rfl, rfl, rfl⟩
  simp [List.mem_filter]

theorem expiry_tick_filters_old_targets_witness :
    (step (run initState [Event.start, Event.spawnTick 5 5 30 0])
        (Event.expiryTick 3000)).targets.Sublist
      (run initState [Event.start, Event.spawnTick 5 5 30 0]).targets ∧
    ((⟨0, 5, 5, 30, 0⟩ : Target) ∈
        (step (run initState [Event.start, Event.spawnTick 5 5 30 0])
          (Event.expiryTick 3000)).targets ↔
      (⟨0, 5, 5, 30, 0⟩ : Target) ∈
          (run initState [Event.start, Event.spawnTick 5 5 30 0]).targets ∧
        (3000 : Int) - (⟨0, 5, 5, 30, 0⟩ : Target).createdAt < 3000) ∧
    (step (run initState [Event.start, Event.spawnTick 5 5 30 0])
        (Event.expiryTick 3000)).stats =
      (run initState [Event.start, Event.spawnTick 5 5 30 0]).stats ∧
    (step (run initState [Event.start, Event.spawnTick 5 5 30 0])
        (Event.expiryTick 3000)).combo =
      (run initState [Event.start, Event.spawnTick 5 5 30 0]).combo ∧
    (step (run initState [Event.start, Event.spawnTick 5 5 30 0])
        (Event.expiryTick 3000)).maxCombo =
      (run initState [Event.start, Event.spawnTick 5 5 30 0]).maxCombo ∧
    (step (run initState [Event.start, Event.spawnTick 5 5 30 0])
        (Event.expiryTick 3000)).timeLeft =
      (run initState [Event.start, Event.spawnTick 5 5 30 0]).timeLeft ∧
    (step (run initState [Event.start, Event.spawnTick 5 5 30 0])
        (Event.expiryTick 3000)).gameState =
      (run initState [Event.start, Event.spawnTick 5 5 30 0]).gameState :=
  expiry_tick_filters_old_targets
    (run initState [Event.start, Event.spawnTick 5 5 30 0]) 3000
    ⟨0, 5, 5, 30, 0⟩ (by decide)

/-- The combo value after each successive event of a trace: the per-event
history of the `combo` field along a run. -/
def comboList (s : AppState) : List Event → List Int
  | [] => []
  | e :: rest => (step s e).combo :: comboList (step s e) rest

theorem step_maxCombo_max (s : AppState) (e : Event) (hne : e ≠ Event.start)
    (h0 : 0 ≤ s.combo) (h1 : s.combo ≤ s.maxCombo) :
    (step s e).maxCombo = max s.maxCombo (step s e).combo ∧
    0 ≤ (step s e).combo ∧ (step s e).combo ≤ (step s e).maxCombo := by
  have hkeep : s.maxCombo = max s.maxCombo s.combo := (max_eq_left h1).symm
  cases e with
  | start => exact absurd rfl hne
  | hit tid =>
      simp only [step]
      split
      · refine ⟨?_, ?_, ?_⟩
        · show (if s.combo + 1 > s.maxCombo then s.combo + 1 else s.maxCombo) =
            max s.maxCombo (s.combo + 1)
          rw [max_def]
          split <;> split <;> omega
        · show (0 : Int) ≤ s.combo + 1
          omega
        · show s.combo + 1 ≤ if s.combo + 1 > s.maxCombo then s.combo + 1 else s.maxCombo
          split <;> omega
      · exact ⟨hkeep, h0, h1⟩
  | miss =>
      simp only [step]
      split
      · exact ⟨(max_eq_left (le_trans h0 h1)).symm, le_refl 0, le_trans h0 h1⟩
      · exact ⟨hkeep, h0, h1⟩
  | clockTick =>
      simp only [step]
      split
      · unfold clockTick
        split
        · exact ⟨hkeep, h0, h1⟩
        · exact ⟨hkeep, h0, h1⟩
      · exact ⟨hkeep, h0, h1⟩
  | spawnTick x y size now =>
      simp only [step]
      split
      · exact ⟨hkeep, h0, h1⟩
      · exact ⟨hkeep, h0, h1⟩
  | firePending x y size now =>
      simp only [step]
      split
      · exact ⟨hkeep, h0, h1⟩
      · exact ⟨hkeep, h0, h1⟩
  | expiryTick now =>
      simp only [step]
      split
      · exact ⟨hkeep, h0, h1⟩
      · exact ⟨hkeep, h0, h1⟩
  | endNow =>
      simp only [step]
      split
      · exact ⟨hkeep, h0, h1⟩
      · exact ⟨hkeep, h0, h1⟩
  | toMenu =>
      simp only [step]
      split
      · exact ⟨hkeep, h0, h1⟩
      · exact ⟨hkeep, h0, h1⟩

theorem step_maxCombo_mono (s : AppState) (e : Event) (hne : e ≠ Event.start) :
    s.maxCombo ≤ (step s e).maxCombo := by
  cases e with
  | start => exact absurd rfl hne
  | hit tid =>
      simp only [step]
      split
      · show s.maxCombo ≤ if s.combo + 1 > s.maxCombo then s.combo + 1 else s.maxCombo
        split <;> omega
      · exact le_refl _
  | miss =>
      simp only [step]
      split
      · exact le_refl _
      · exact le_refl _
  | clockTick =>
      simp only [step]
      split
      · unfold clockTick
        split
        · exact le_refl _
        · exact le_refl _
      · exact le_refl _
  | spawnTick x y size now =>
      simp only [step]
      split
      · exact le_refl _
      · exact le_refl _
  | firePending x y size now =>
      simp only [step]
      split
      · exact le_refl _
      · exact le_refl _
  | expiryTick now =>
      simp only [step]
      split
      · exact le_refl _
      · exact le_refl _
  | endNow =>
      simp only [step]
      split
      · exact le_refl _
      · exact le_refl _
  | toMenu =>
      simp only [step]
      split
      · exact le_refl _
      · exact le_refl _

theorem run_maxCombo_foldl (evs : List Event) :
    ∀ s : AppState, Event.start ∉ evs → 0 ≤ s.combo → s.combo ≤ s.maxCombo →
      (run s evs).maxCombo = (comboList s evs).foldl max s.maxCombo := by
  induction evs with
  | nil =>
      intro s _ _ _
      rfl
  | cons e rest ih =>
      intro s hns h0 h1
      have hne : e ≠ Event.start := by
        intro he
        exact hns (by rw [he]; exact List.mem_cons_self _ _)
      obtain ⟨hmax, h0', h1'⟩ := step_maxCombo_max s e hne h0 h1
      have hns' : Event.start ∉ rest := fun hm => hns (List.mem_cons_of_mem _ hm)
      calc (run s (e :: rest)).maxCombo
          = (run (step s e) rest).maxCombo := rfl
        _ = (comboList (step s e) rest).foldl max (step s e).maxCombo :=
            ih (step s e) hns' h0' h1'
        _ = (comboList (step s e) rest).foldl max (max s.maxCombo (step s e).combo) := by
            rw [hmax]
        _ = (comboList s (e :: rest)).foldl max s.maxCombo := rfl

/-- C9: within a session (an event trace containing no restart), `maxCombo`
never decreases at any step, and after running the trace from a freshly
started session it equals the maximum over the whole combo history, i.e. the
fold of `max` over every combo value held since the session started (the
start value being 0). -/
theorem maxCombo_running_max (s₀ s : AppState) (evs : List Event) (e : Event)
    (hns : Event.start ∉ evs) (hne : e ≠ Event.start) :
    (run (startGame s₀) evs).maxCombo =
      (comboList (startGame s₀) evs).foldl max 0 ∧
    s.maxCombo ≤ (step s e).maxCombo :=
  ⟨run_maxCombo_foldl evs (startGame s₀) hns (le_refl 0) (le_refl 0),
    step_maxCombo_mono s e hne⟩

theorem maxCombo_running_max_witness :
    (run (startGame initState)
        [Event.spawnTick 5 5 30 0, Event.hit 0, Event.miss]).maxCombo =
      (comboList (startGame initState)
        [Event.spawnTick 5 5 30 0, Event.hit 0, Event.miss]).foldl max 0 ∧
    initState.maxCombo ≤ (step initState Event.miss).maxCombo :=
  maxCombo_running_max initState initState
    [Event.spawnTick 5 5 30 0, Event.hit 0, Event.miss] Event.miss
    (by decide) (by decide)

theorem filter_ne_eq_eraseP (l : List Target) (tid : Nat)
    (hnd : (l.map Target.id).Nodup) (hm : tid ∈ l.map Target.id) :
    l.filter (fun t => t.id ≠ tid) = l.eraseP (fun t => t.id = tid) ∧
    (l.filter (fun t => t.id ≠ tid)).length + 1 = l.length := by
  induction l with
  | nil => simp at hm
  | cons a l ih =>
      simp only [List.map_cons, List.nodup_cons] at hnd
      rw [List.map_cons] at hm
      by_cases ha : a.id = tid
      · have hl : ∀ u ∈ l, (fun t => decide (t.id ≠ tid)) u = true := by
          intro u hu
          simp only [decide_eq_true_eq]
          intro heq
          apply hnd.1
          rw [ha, ← heq]
          exact List.mem_map_of_mem Target.id hu
        constructor
        · rw [List.filter_cons_of_neg (by simp [ha]), List.eraseP_cons_of_pos (by simp [ha]),
            List.filter_eq_self.mpr hl]
        · rw [List.filter_cons_of_neg (by simp [ha]), List.filter_eq_self.mpr hl,
            List.length_cons]
      · have hm' : tid ∈ l.map Target.id := by
          rcases List.mem_cons.mp hm with h | h
          · exact absurd h.symm ha
          · exact h
        obtain ⟨hf, hlen⟩ := ih hnd.2 hm'
        constructor
        · rw [List.filter_cons_of_pos (by simp [ha]), List.eraseP_cons_of_neg (by simp [ha]), hf]
        · rw [List.filter_cons_of_pos (by simp [ha]), List.length_cons, List.length_cons]
          omega

/-- C10: while playing, hitting a live target id removes exactly that one
target — ids are unique in every reachable state, so the by-id filter equals
erasing the single matching element — keeping every other target intact and in
order (the result is both a sublist and the one-element erasure, and is one
shorter); of the rest of the state, `misses`, `timeLeft`, the session phase
and the id counter are all unchanged by the hit. -/
theorem hit_removes_exactly_one (s : AppState) (tid : Nat) (h : Reachable s)
    (hp : s.gameState = GameState.playing) (hm : tid ∈ s.targets.map Target.id) :
    (step s (Event.hit tid)).targets.Sublist s.targets ∧
    (step s (Event.hit tid)).targets.length + 1 = s.targets.length ∧
    (step s (Event.hit tid)).targets = s.targets.eraseP (fun t => t.id = tid) ∧
    (step s (Event.hit tid)).stats.misses = s.stats.misses ∧
    (step s (Event.hit tid)).timeLeft = s.timeLeft ∧
    (step s (Event.hit tid)).gameState = s.gameState ∧
    (step s (Event.hit tid)).targetId = s.targetId := by
  obtain ⟨-, -, -, -, -, hnd, -⟩ := gameInv_reachable s h
  obtain ⟨hf, hlen⟩ := filter_ne_eq_eraseP s.targets tid hnd hm
  have hstep : step s (Event.hit tid) = hitTarget tid s := by
    simp only [step, if_pos (And.intro hp hm)]
  rw [hstep]
  refine ⟨?_, ?_, ?_, rfl, rfl, rfl, rfl⟩
  · show (s.targets.filter (fun t => t.id ≠ tid)).Sublist s.targets
    exact List.filter_sublist s.targets
  · exact hlen
  · exact hf

theorem hit_removes_exactly_one_witness :
    (step (run initState [Event.start, Event.spawnTick 5 5 30 0, Event.spawnTick 7 7 30 100])
        (Event.hit 0)).targets.Sublist
      (run initState [Event.start, Event.spawnTick 5 5 30 0,
        Event.spawnTick 7 7 30 100]).targets ∧
    (step (run initState [Event.start, Event.spawnTick 5 5 30 0, Event.spawnTick 7 7 30 100])
        (Event.hit 0)).targets.length + 1 =
      (run initState [Event.start, Event.spawnTick 5 5 30 0,
        Event.spawnTick 7 7 30 100]).targets.length ∧
    (step (run initState [Event.start, Event.spawnTick 5 5 30 0, Event.spawnTick 7 7 30 100])
        (Event.hit 0)).targets =
      (run initState [Event.start, Event.spawnTick 5 5 30 0,
        Event.spawnTick 7 7 30 100]).targets.eraseP (fun t => t.id = 0) ∧
    (step (run initState [Event.start, Event.spawnTick 5 5 30 0, Event.spawnTick 7 7 30 100])
        (Event.hit 0)).stats.misses =
      (run initState [Event.start, Event.spawnTick 5 5 30 0,
        Event.spawnTick 7 7 30 100]).stats.misses ∧
    (step (run initState [Event.start, Event.spawnTick 5 5 30 0, Event.spawnTick 7 7 30 100])
        (Event.hit 0)).timeLeft =
      (run initState [Event.start, Event.spawnTick 5 5 30 0,
        Event.spawnTick 7 7 30 100]).timeLeft ∧
    (step (run initState [Event.start, Event.spawnTick 5 5 30 0, Event.spawnTick 7 7 30 100])
        (Event.hit 0)).gameState =
      (run initState [Event.start, Event.spawnTick 5 5 30 0,
        Event.spawnTick 7 7 30 100]).gameState ∧
    (step (run initState [Event.start, Event.spawnTick 5 5 30 0, Event.spawnTick 7 7 30 100])
        (Event.hit 0)).targetId =
      (run initState [Event.start, Event.spawnTick 5 5 30 0,
        Event.spawnTick 7 7 30 100]).targetId :=
  hit_removes_exactly_one
    (run initState [Event.start, Event.spawnTick 5 5 30 0, Event.spawnTick 7 7 30 100]) 0
    ⟨[Event.start, Event.spawnTick 5 5 30 0, Event.spawnTick 7 7 30 100], rfl⟩
    (by decide) (by decide)
